import Mathlib

/-!
Verification development for the TerraForge spherical Voronoi pipeline
(`src/delaunay_triangulation.rs`, `src/fibonacci_sphere.rs`).

Embedding conventions:

* `f64` arithmetic is idealised as exact real arithmetic over `ℝ` for the
  geometric formulas (projection, circumcenter, Fibonacci sampling).  The
  source performs the same sequence of field operations on `f64`.
* The control-flow level of `create_spherical_voronoi` (projection of a
  point list, insertion loop, pole stitching) is embedded over `ℚ`, with
  `Option` tracking whether a value is finite: `none` stands for a point
  holding a non-finite (`NaN`/`±∞`) coordinate.  Division by an exactly
  zero divisor is the event that produces a non-finite `f64` value, and is
  the case split carried by `Option`.
* The Rust `.expect(..)` construct (abort on `Err`) is modelled by
  `expectOk`, which maps an error to `none`: a `none` result of the
  pipeline means the program panicked.
* The random jitter draws of `rand::thread_rng` (`gen::<f64>() - 0.5`,
  a value in `[-1/2, 1/2]`) are passed as explicit parameters.
* File output (`writeln!`) is ignored: only the emitted records are
  modelled, not their textual rendering.
-/

namespace TerraForge

/-- A 3D point, the Rust tuple `(f64, f64, f64)`, idealised over `ℝ`.
Components are accessed as `.1`, `.2.1`, `.2.2` for the Rust `.0`, `.1`, `.2`. -/
abbrev Vec3 : Type := ℝ × ℝ × ℝ

/-- A planar point, the spade type `Point2<f64>`, idealised over `ℝ`. -/
abbrev P2 : Type := ℝ × ℝ

/-- Embedding of `stereographic_projection` (delaunay_triangulation.rs, lines 20-24):
`scale = 1.0 / (1.0 + y); Point2::new(x * scale, -z * scale)`. -/
noncomputable def stereographic_projection (x y z : ℝ) : P2 :=
  let scale := 1 / (1 + y)
  (x * scale, -z * scale)

/-- Embedding of `inverse_stereographic_projection` (delaunay_triangulation.rs, lines 38-45):
`x = point.x; z = -point.y; x2z2 = x*x + z*z; scale = 2.0 / (x2z2 + 1.0);
y = (x2z2 - 1.0) / (x2z2 + 1.0); (x * scale, y, z * scale)`. -/
noncomputable def inverse_stereographic_projection (p : P2) : Vec3 :=
  let x := p.1
  let z := -p.2
  let x2z2 := x * x + z * z
  let scale := 2 / (x2z2 + 1)
  let y := (x2z2 - 1) / (x2z2 + 1)
  (x * scale, y, z * scale)

/-- The `normal` binding of `calculate_spherical_circumcenter`
(delaunay_triangulation.rs, lines 63-67): the cross product of `b - a`
and `c - a`, component by component as written in the source. -/
noncomputable def circumNormal (a b c : Vec3) : Vec3 :=
  ((b.2.1 - a.2.1) * (c.2.2 - a.2.2) - (b.2.2 - a.2.2) * (c.2.1 - a.2.1),
   (b.2.2 - a.2.2) * (c.1 - a.1) - (b.1 - a.1) * (c.2.2 - a.2.2),
   (b.1 - a.1) * (c.2.1 - a.2.1) - (b.2.1 - a.2.1) * (c.1 - a.1))

/-- The `length` binding of `calculate_spherical_circumcenter`
(delaunay_triangulation.rs, line 70):
`(normal.0 * normal.0 + normal.1 * normal.1 + normal.2 * normal.2).sqrt()`. -/
noncomputable def circumLength (a b c : Vec3) : ℝ :=
  let n := circumNormal a b c
  Real.sqrt (n.1 * n.1 + n.2.1 * n.2.1 + n.2.2 * n.2.2)

/-- Embedding of `calculate_spherical_circumcenter` (delaunay_triangulation.rs, lines 61-72):
the cross product of `(b-a)` and `(c-a)`, divided componentwise by its
Euclidean length.  The source has no zero-length guard and no orientation
correction step. -/
noncomputable def calculate_spherical_circumcenter (a b c : Vec3) : Vec3 :=
  let n := circumNormal a b c
  let length := circumLength a b c
  (n.1 / length, n.2.1 / length, n.2.2 / length)

/-- Euclidean norm of a 3D point (used to state distance-from-origin
properties about the outputs of the code). -/
noncomputable def norm3 (v : Vec3) : ℝ :=
  Real.sqrt (v.1 ^ 2 + v.2.1 ^ 2 + v.2.2 ^ 2)

/-- The round trip `inverse_stereographic_projection ∘ stereographic_projection`
reflects the `y` coordinate: on the unit sphere (away from `y = -1`) it
returns `(x, -y, z)`, not `(x, y, z)`.  Helper used to document the
projection-layer sign mismatch. -/
theorem roundtrip_eq_reflect (x y z : ℝ) (hs : x ^ 2 + y ^ 2 + z ^ 2 = 1)
    (hy : 1 + y ≠ 0) :
    inverse_stereographic_projection (stereographic_projection x y z) =
      (x, -y, z) := by
  simp only [stereographic_projection, inverse_stereographic_projection]
  have hden : x * (1 / (1 + y)) * (x * (1 / (1 + y))) +
      - (-z * (1 / (1 + y))) * - (-z * (1 / (1 + y))) + 1 = 2 / (1 + y) := by
    field_simp
    linear_combination (1 + y) * hs
  refine Prod.ext ?_ (Prod.ext ?_ ?_)
  · show x * (1 / (1 + y)) *
      (2 / (x * (1 / (1 + y)) * (x * (1 / (1 + y))) +
        - (-z * (1 / (1 + y))) * - (-z * (1 / (1 + y))) + 1)) = x
    rw [hden]
    field_simp
  · show (x * (1 / (1 + y)) * (x * (1 / (1 + y))) +
        - (-z * (1 / (1 + y))) * - (-z * (1 / (1 + y))) - 1) /
      (x * (1 / (1 + y)) * (x * (1 / (1 + y))) +
        - (-z * (1 / (1 + y))) * - (-z * (1 / (1 + y))) + 1) = -y
    have hD : x * (1 / (1 + y)) * (x * (1 / (1 + y))) +
        - (-z * (1 / (1 + y))) * - (-z * (1 / (1 + y))) = 2 / (1 + y) - 1 := by
      linarith [hden]
    rw [hD]
    rw [div_eq_iff (by field_simp : 2 / (1 + y) - 1 + 1 ≠ 0)]
    field_simp
    ring
  · show - (-z * (1 / (1 + y))) *
      (2 / (x * (1 / (1 + y)) * (x * (1 / (1 + y))) +
        - (-z * (1 / (1 + y))) * - (-z * (1 / (1 + y))) + 1)) = z
    rw [hden]
    field_simp

/-- C1: the projection round-trip contract fails.  At the unit-sphere point
`p = (0, 1, 0)` (which satisfies `y ≠ -1`), the code computes
`inverse_stereographic_projection (stereographic_projection 0 1 0) = (0, -1, 0)`:
the `y` coordinate comes back negated, off by `2`, far beyond the `1e-9`
tolerance the claim allows. -/
theorem roundtrip_fails_at_north_pole :
    (0 : ℝ) ^ 2 + 1 ^ 2 + 0 ^ 2 = 1 ∧ (1 : ℝ) ≠ -1 ∧
    inverse_stereographic_projection (stereographic_projection 0 1 0) =
      (0, -1, 0) ∧
    (1 / 1000000000 : ℝ) <
      |(inverse_stereographic_projection (stereographic_projection 0 1 0)).2.1 - 1| := by
  have h : inverse_stereographic_projection (stereographic_projection 0 1 0) =
      ((0 : ℝ), -1, 0) := by
    simp only [stereographic_projection, inverse_stereographic_projection]
    norm_num
  refine ⟨by norm_num, by norm_num, h, ?_⟩
  rw [h]
  norm_num

/-- The spade `VoronoiVertex` type as matched in `print_voronoi_edges`
(delaunay_triangulation.rs, lines 124-142): `inner` carries the planar
positions of the three vertices of the incident Delaunay face (what the
code reads from `face.vertices()`); `outer` is a vertex at infinity,
whose payload the code never inspects. -/
inductive VoronoiVertexE : Type
  | inner (face : P2 × P2 × P2)
  | outer

/-- The 3D endpoint computed for an inner Voronoi vertex
(print_voronoi_edges, lines 126-137): inverse-project the three
planar vertices, then take their spherical circumcenter. -/
noncomputable def faceCircumcenter3d (f : P2 × P2 × P2) : Vec3 :=
  calculate_spherical_circumcenter
    (inverse_stereographic_projection f.1)
    (inverse_stereographic_projection f.2.1)
    (inverse_stereographic_projection f.2.2)

/-- The Unreal-coordinate adjustment of `print_voronoi_edges`
(lines 144-146): `(v.0 * 1000.0, v.2 * 1000.0, -v.1 * 1000.0)`. -/
noncomputable def toUnreal (v : Vec3) : Vec3 :=
  (v.1 * 1000, v.2.2 * 1000, -v.2.1 * 1000)

/-- What `print_voronoi_edges` writes for one undirected Voronoi edge
(lines 123-152): for two inner vertices it emits the segment between the
two reconstructed face circumcenters in Unreal coordinates; every other
shape of edge hits the `_ => continue` arm (line 141) and produces no
output at all. -/
noncomputable def voronoiEdgeOutput :
    VoronoiVertexE × VoronoiVertexE → Option (Vec3 × Vec3)
  | (.inner fromFace, .inner toFace) =>
      some (toUnreal (faceCircumcenter3d fromFace),
            toUnreal (faceCircumcenter3d toFace))
  | _ => none

/-- The loop of `print_voronoi_edges` over the list of undirected
Voronoi edges: the collection of emitted records, in iteration order. -/
noncomputable def print_voronoi_edges
    (edges : List (VoronoiVertexE × VoronoiVertexE)) : List (Vec3 × Vec3) :=
  edges.filterMap voronoiEdgeOutput

/-- C2 counterexample: a hull edge (exactly one incident face) emits
nothing.  For the concrete inner face with vertices (0,0), (1,0), (0,1)
paired with an outer vertex, `print_voronoi_edges` produces no record,
where the claim requires a `Ray` record to be emitted. -/
theorem hull_edge_emits_no_record :
    voronoiEdgeOutput (.inner ((0, 0), (1, 0), (0, 1)), .outer) = none := rfl

/-- C2 amended: `print_voronoi_edges` emits a record for an undirected
Voronoi edge exactly when both endpoints are inner vertices; any edge with
an outer endpoint (in particular every hull edge) is skipped, producing no
`Ray` or any other record. -/
theorem voronoi_output_none_iff_outer (v w : VoronoiVertexE) :
    voronoiEdgeOutput (v, w) = none ↔ v = .outer ∨ w = .outer := by
  cases v <;> cases w <;> simp [voronoiEdgeOutput]

/-- C3 counterexample: no division guard exists.  For a degenerate face
whose inverse-projected vertices give a zero cross product, the divisor
`length` computed by `calculate_spherical_circumcenter` is exactly `0`,
yet the edge is still emitted by `print_voronoi_edges` (no skip, and the
code has no `NumericalInstabilityWarning` channel at all). -/
theorem degenerate_face_emitted_unchecked :
    circumLength (inverse_stereographic_projection (0, 0))
      (inverse_stereographic_projection (0, 0))
      (inverse_stereographic_projection (1, 0)) = 0 ∧
    voronoiEdgeOutput
      (.inner ((0, 0), (0, 0), (1, 0)), .inner ((0, 0), (1, 0), (0, 1))) ≠ none := by
  constructor
  · have hn : circumNormal (inverse_stereographic_projection (0, 0))
        (inverse_stereographic_projection (0, 0))
        (inverse_stereographic_projection (1, 0)) = (0, 0, 0) := by
      simp only [circumNormal, inverse_stereographic_projection]
      norm_num
    simp only [circumLength, hn]
    norm_num
  · simp [voronoiEdgeOutput]

/-- C3 amended: neither division in the geometric routines is guarded.
`print_voronoi_edges` emits a segment for every pair of inner faces
unconditionally (the circumcenter division by the cross-product length is
always performed, with no near-zero check, no skipped face and no
warning), and `stereographic_projection` always divides by `1 + y`. -/
theorem emission_is_unconditional (f g : P2 × P2 × P2) (x y z : ℝ) :
    voronoiEdgeOutput (.inner f, .inner g) =
      some (toUnreal (faceCircumcenter3d f), toUnreal (faceCircumcenter3d g)) ∧
    stereographic_projection x y z = (x / (1 + y), -(z / (1 + y))) := by
  refine ⟨rfl, ?_⟩
  simp only [stereographic_projection, Prod.mk.injEq]
  constructor <;> ring

/-- C7 amended: `calculate_spherical_circumcenter` performs no orientation
step; swapping its last two arguments negates the returned direction, for
every input triple. -/
theorem circumcenter_swap_negates (a b c : Vec3) :
    calculate_spherical_circumcenter a c b =
      (-(calculate_spherical_circumcenter a b c).1,
       -(calculate_spherical_circumcenter a b c).2.1,
       -(calculate_spherical_circumcenter a b c).2.2) := by
  have hn : circumNormal a c b =
      (-(circumNormal a b c).1, -(circumNormal a b c).2.1,
       -(circumNormal a b c).2.2) := by
    simp only [circumNormal, Prod.mk.injEq]
    refine ⟨?_, ?_, ?_⟩ <;> ring
  have hl : circumLength a c b = circumLength a b c := by
    simp only [circumLength, hn]
    ring_nf
  simp only [calculate_spherical_circumcenter, hn, hl, Prod.mk.injEq]
  refine ⟨?_, ?_, ?_⟩ <;> rw [neg_div]

/-- C7 counterexample: the returned direction depends on the argument
order.  The three unit-sphere points a = (1,0,0), b = (0,1,0),
c = (3/5,0,4/5) are non-collinear (nonzero cross product), yet the code
returns (2/3,2/3,1/3) for (a,b,c) and the opposite (-2/3,-2/3,-1/3) for
(a,c,b); for the ordering (a,c,b) the result has negative dot product
with the triangle centroid, i.e. it points away from the hemisphere
containing the centroid. -/
theorem circumcenter_orientation_depends_on_order :
    ((1:ℝ)^2 + 0^2 + 0^2 = 1) ∧ ((0:ℝ)^2 + 1^2 + 0^2 = 1) ∧
    ((3/5:ℝ)^2 + 0^2 + (4/5)^2 = 1) ∧
    circumNormal ((1:ℝ), 0, 0) (0, 1, 0) (3/5, 0, 4/5) ≠ (0, 0, 0) ∧
    calculate_spherical_circumcenter ((1:ℝ), 0, 0) (0, 1, 0) (3/5, 0, 4/5) =
      (2/3, 2/3, 1/3) ∧
    calculate_spherical_circumcenter ((1:ℝ), 0, 0) (3/5, 0, 4/5) (0, 1, 0) =
      (-2/3, -2/3, -1/3) ∧
    calculate_spherical_circumcenter ((1:ℝ), 0, 0) (0, 1, 0) (3/5, 0, 4/5) ≠
      calculate_spherical_circumcenter ((1:ℝ), 0, 0) (3/5, 0, 4/5) (0, 1, 0) ∧
    (calculate_spherical_circumcenter ((1:ℝ), 0, 0) (3/5, 0, 4/5) (0, 1, 0)).1 *
        ((1 + 0 + 3/5) / 3) +
      (calculate_spherical_circumcenter ((1:ℝ), 0, 0) (3/5, 0, 4/5) (0, 1, 0)).2.1 *
        ((0 + 1 + 0) / 3) +
      (calculate_spherical_circumcenter ((1:ℝ), 0, 0) (3/5, 0, 4/5) (0, 1, 0)).2.2 *
        ((0 + 0 + 4/5) / 3) < 0 := by
  have hs36 : Real.sqrt (36/25) = 6/5 := by
    rw [show (36/25:ℝ) = (6/5)^2 by norm_num,
      Real.sqrt_sq (by norm_num : (0:ℝ) ≤ 6/5)]
  have hn : circumNormal ((1:ℝ), 0, 0) (0, 1, 0) (3/5, 0, 4/5) =
      (4/5, 4/5, 2/5) := by
    simp only [circumNormal]
    norm_num
  have hn2 : circumNormal ((1:ℝ), 0, 0) (3/5, 0, 4/5) (0, 1, 0) =
      (-(4/5), -(4/5), -(2/5)) := by
    simp only [circumNormal]
    norm_num
  have hl : circumLength ((1:ℝ), 0, 0) (0, 1, 0) (3/5, 0, 4/5) = 6/5 := by
    simp only [circumLength, hn]
    norm_num [hs36]
  have hl2 : circumLength ((1:ℝ), 0, 0) (3/5, 0, 4/5) (0, 1, 0) = 6/5 := by
    simp only [circumLength, hn2]
    norm_num [hs36]
  have hcc : calculate_spherical_circumcenter ((1:ℝ), 0, 0) (0, 1, 0) (3/5, 0, 4/5) =
      (2/3, 2/3, 1/3) := by
    simp only [calculate_spherical_circumcenter, hn, hl]
    norm_num
  have hcc2 : calculate_spherical_circumcenter ((1:ℝ), 0, 0) (3/5, 0, 4/5) (0, 1, 0) =
      (-2/3, -2/3, -1/3) := by
    simp only [calculate_spherical_circumcenter, hn2, hl2]
    norm_num
  refine ⟨by norm_num, by norm_num, by norm_num, ?_, hcc, hcc2, ?_, ?_⟩
  · rw [hn]
    norm_num [Prod.ext_iff]
  · rw [hcc, hcc2]
    norm_num [Prod.ext_iff]
  · rw [hcc2]
    norm_num

/-- C9: whenever the cross product of `(b-a)` and `(c-a)` is nonzero, the
vector returned by `calculate_spherical_circumcenter` has Euclidean norm
exactly `1` (in exact real arithmetic). -/
theorem circumcenter_unit_norm (a b c : Vec3)
    (h : circumNormal a b c ≠ (0, 0, 0)) :
    norm3 (calculate_spherical_circumcenter a b c) = 1 := by
  rcases hEq : circumNormal a b c with ⟨n1, n2, n3⟩
  rw [hEq] at h
  have hS0 : (0:ℝ) ≤ n1 * n1 + n2 * n2 + n3 * n3 :=
    add_nonneg (add_nonneg (mul_self_nonneg n1) (mul_self_nonneg n2))
      (mul_self_nonneg n3)
  have hSne : n1 * n1 + n2 * n2 + n3 * n3 ≠ 0 := by
    intro h0
    apply h
    have h1 : n1 = 0 := by
      nlinarith [mul_self_nonneg n1, mul_self_nonneg n2, mul_self_nonneg n3]
    have h2 : n2 = 0 := by
      nlinarith [mul_self_nonneg n1, mul_self_nonneg n2, mul_self_nonneg n3]
    have h3 : n3 = 0 := by
      nlinarith [mul_self_nonneg n1, mul_self_nonneg n2, mul_self_nonneg n3]
    simp [h1, h2, h3]
  have hSpos : (0:ℝ) < n1 * n1 + n2 * n2 + n3 * n3 :=
    lt_of_le_of_ne hS0 (Ne.symm hSne)
  have hlen : circumLength a b c = Real.sqrt (n1 * n1 + n2 * n2 + n3 * n3) := by
    simp only [circumLength, hEq]
  have hlpos : 0 < Real.sqrt (n1 * n1 + n2 * n2 + n3 * n3) :=
    Real.sqrt_pos.mpr hSpos
  have hlne : Real.sqrt (n1 * n1 + n2 * n2 + n3 * n3) ≠ 0 := ne_of_gt hlpos
  have hlsq : Real.sqrt (n1 * n1 + n2 * n2 + n3 * n3) ^ 2 =
      n1 * n1 + n2 * n2 + n3 * n3 := Real.sq_sqrt hS0
  simp only [calculate_spherical_circumcenter, norm3, hEq, hlen]
  have harg : (n1 / Real.sqrt (n1 * n1 + n2 * n2 + n3 * n3)) ^ 2 +
      (n2 / Real.sqrt (n1 * n1 + n2 * n2 + n3 * n3)) ^ 2 +
      (n3 / Real.sqrt (n1 * n1 + n2 * n2 + n3 * n3)) ^ 2 = 1 := by
    rw [div_pow, div_pow, div_pow, div_add_div_same, div_add_div_same, hlsq,
      div_eq_one_iff_eq hSne]
    ring
  rw [harg, Real.sqrt_one]

/-- C9 witness: at the concrete non-collinear unit-sphere triple
(1,0,0), (0,1,0), (3/5,0,4/5) the cross product is nonzero and the
returned circumcenter has norm 1. -/
theorem circumcenter_unit_norm_witness :
    circumNormal ((1:ℝ), 0, 0) (0, 1, 0) (3/5, 0, 4/5) ≠ (0, 0, 0) ∧
    norm3 (calculate_spherical_circumcenter ((1:ℝ), 0, 0) (0, 1, 0)
      (3/5, 0, 4/5)) = 1 := by
  have hne : circumNormal ((1:ℝ), 0, 0) (0, 1, 0) (3/5, 0, 4/5) ≠ (0, 0, 0) := by
    simp only [circumNormal]
    norm_num [Prod.ext_iff]
  exact ⟨hne, circumcenter_unit_norm _ _ _ hne⟩

/-- A finite planar point at the control-flow level of the pipeline.
A planar value holding a non-finite coordinate is `none : Option P2Q`. -/
abbrev P2Q : Type := ℚ × ℚ

/-- A finite 3D input point at the control-flow level; `none` stands for
an input point with a non-finite coordinate. -/
abbrev Vec3Q : Type := ℚ × ℚ × ℚ

/-- The error taxonomy of the spec (§7): `DuplicatePointError` and
`DegenerateInputError`. -/
inductive InsertionError : Type
  | duplicatePoint
  | degenerateInput

/-- Embedding of `stereographic_projection` at the control-flow level (lines 20-24),
tracking finiteness: a non-finite input stays non-finite, and at the
projection pole `1 + y = 0` the division `1/(1+y)` produces a non-finite
(`±∞`/`NaN`) value, modelled as `none`.  Away from the pole this is the
same rational formula as the real-valued embedding. -/
def stereographic_projectionF : Option Vec3Q → Option P2Q
  | none => none
  | some (x, y, z) =>
      if 1 + y = 0 then none
      else some (x * (1 / (1 + y)), -z * (1 / (1 + y)))

/-- Modelled from the spec: the spade `Triangulation::insert` operation.  The
triangulation engine is the external `spade` crate, whose sources are not
part of this repository; following spec §4.2 and §7, insertion fails with
`DuplicatePointError` when the new point lies within the configured
tolerance of an existing vertex, fails with `DegenerateInputError` when
the point has a non-finite coordinate (`none`), and otherwise appends the
new vertex.  The triangulation is abstracted to its list of inserted
vertices, in insertion order. -/
def insert (verts : List P2Q) (tol : ℚ) (p : Option P2Q) :
    Except InsertionError (List P2Q) :=
  match p with
  | none => .error .degenerateInput
  | some q =>
      if ∃ v ∈ verts, (v.1 - q.1) ^ 2 + (v.2 - q.2) ^ 2 ≤ tol ^ 2 then
        .error .duplicatePoint
      else
        .ok (verts ++ [q])

/-- The Rust `.expect(..)` call on the insertion result
(`create_spherical_voronoi`, lines 97 and 102): an `Err` aborts the whole
program with a panic.  A panic is modelled as `none`; the error value is
lost, never returned to a caller. -/
def expectOk : Except InsertionError (List P2Q) → Option (List P2Q)
  | .ok t => some t
  | .error _ => none

/-- The insertion loop of `create_spherical_voronoi` (lines 95-98):
insert every projected point in order, unwrapping each result with
`.expect`. -/
def insertAll (tol : ℚ) (ps : List (Option P2Q)) : Option (List P2Q) :=
  ps.foldl (fun acc p => acc.bind fun t => expectOk (insert t tol p)) (some [])

/-- Embedding of `create_spherical_voronoi` (delaunay_triangulation.rs, lines 87-105):
project every input point with `stereographic_projection` (no pole check),
insert each projected point with `.expect`, then insert the south-pole
planar representative `(0,0)` with `.expect` as the final insertion
("stitch south pole"). -/
def create_spherical_voronoi (tol : ℚ) (points : List (Option Vec3Q)) :
    Option (List P2Q) :=
  let projected := points.map stereographic_projectionF
  (insertAll tol projected).bind fun t => expectOk (insert t tol (some (0, 0)))

/-- Helper: a successful insertion of a finite point appends exactly that
point to the vertex list. -/
theorem insert_ok_eq (verts t : List P2Q) (tol : ℚ) (q : P2Q)
    (h : insert verts tol (some q) = .ok t) : t = verts ++ [q] := by
  by_cases hdup : ∃ v ∈ verts, (v.1 - q.1) ^ 2 + (v.2 - q.2) ^ 2 ≤ tol ^ 2
  · rw [show insert verts tol (some q) = .error .duplicatePoint from if_pos hdup] at h
    cases h
  · rw [show insert verts tol (some q) = .ok (verts ++ [q]) from if_neg hdup] at h
    exact (Except.ok.inj h).symm

/-- Helper: `expectOk` returns `some` only on an `ok` result. -/
theorem expectOk_eq_some (e : Except InsertionError (List P2Q))
    (t : List P2Q) (h : expectOk e = some t) : e = .ok t := by
  cases e with
  | ok s => simp only [expectOk] at h; rw [Option.some.inj h]
  | error err => simp [expectOk] at h

/-- C4 amended: when a point lies within tolerance of an existing vertex,
`insert` does fail with `DuplicatePointError` (leaving the vertex list
untouched, since the error carries no new state), but
`create_spherical_voronoi` unwraps the result with `.expect`, so the
error is converted into a program panic instead of being returned to the
caller of the program. -/
theorem insert_duplicate_errors_but_program_panics
    (verts : List P2Q) (tol : ℚ) (p : P2Q)
    (h : ∃ v ∈ verts, (v.1 - p.1) ^ 2 + (v.2 - p.2) ^ 2 ≤ tol ^ 2) :
    insert verts tol (some p) = .error .duplicatePoint ∧
    expectOk (insert verts tol (some p)) = none := by
  have h1 : insert verts tol (some p) = .error .duplicatePoint := if_pos h
  exact ⟨h1, by rw [h1]; rfl⟩

/-- C4 witness: the concrete vertex list [(1,0)] with tolerance 1/1000
and the duplicate point (1,0). -/
theorem insert_duplicate_errors_but_program_panics_witness :
    (∃ v ∈ [((1:ℚ), (0:ℚ))], (v.1 - 1) ^ 2 + (v.2 - 0) ^ 2 ≤ (1/1000 : ℚ) ^ 2) ∧
    insert [((1:ℚ), (0:ℚ))] (1/1000) (some (1, 0)) = .error .duplicatePoint ∧
    expectOk (insert [((1:ℚ), (0:ℚ))] (1/1000) (some (1, 0))) = none := by
  have h : ∃ v ∈ [((1:ℚ), (0:ℚ))], (v.1 - 1) ^ 2 + (v.2 - 0) ^ 2 ≤ (1/1000 : ℚ) ^ 2 :=
    ⟨(1, 0), by simp, by norm_num⟩
  exact ⟨h, insert_duplicate_errors_but_program_panics [((1:ℚ), (0:ℚ))] (1/1000) (1, 0) h⟩

/-- C4 counterexample: inserting the same input point twice makes the
program panic (modelled `none`), rather than returning the
`DuplicatePointError` to the caller: the claim text that the program
does not panic fails. -/
theorem duplicate_input_panics_program :
    create_spherical_voronoi (1/1000) [some (1, 0, 0), some (1, 0, 0)] = none := by
  norm_num [create_spherical_voronoi, stereographic_projectionF, insertAll,
    insert, expectOk]

/-- C5 amended: `insert` rejects a non-finite point with
`DegenerateInputError` and the triangulation is unchanged, but the
pipeline step `.expect` turns the error into a program panic instead of
reporting it to the caller. -/
theorem insert_nonfinite_errors_but_program_panics
    (verts : List P2Q) (tol : ℚ) :
    insert verts tol none = .error .degenerateInput ∧
    expectOk (insert verts tol none) = none := ⟨rfl, rfl⟩

/-- C5 counterexample: a single input point with a non-finite coordinate
makes `create_spherical_voronoi` panic (modelled `none`); the error never
reaches the caller. -/
theorem nonfinite_input_panics_program :
    create_spherical_voronoi (1/1000) [none] = none := by
  norm_num [create_spherical_voronoi, stereographic_projectionF, insertAll,
    insert, expectOk]

/-- C6 amended: the planar pole representative (0,0) is inserted
directly (without projecting any 3D pole point) as the final insertion:
whenever `create_spherical_voronoi` succeeds, the last vertex of the
resulting triangulation is (0,0). -/
theorem pole_stitch_is_final_insertion (tol : ℚ) (ps : List (Option Vec3Q))
    (t : List P2Q) (h : create_spherical_voronoi tol ps = some t) :
    t.getLast? = some (0, 0) := by
  simp only [create_spherical_voronoi] at h
  obtain ⟨t', ht', hexp⟩ := Option.bind_eq_some.mp h
  have hok := expectOk_eq_some _ _ hexp
  have ht := insert_ok_eq _ _ _ _ hok
  rw [ht]
  exact List.getLast?_concat t'

/-- C6 witness: a concrete successful run on the single input (1,0,0),
whose triangulation ends with the pole representative (0,0). -/
theorem pole_stitch_is_final_insertion_witness :
    create_spherical_voronoi (1/1000) [some (1, 0, 0)] = some [(1, 0), (0, 0)] ∧
    ([((1:ℚ), (0:ℚ)), ((0:ℚ), (0:ℚ))]).getLast? = some (0, 0) := by
  have h : create_spherical_voronoi (1/1000) [some (1, 0, 0)] =
      some [(1, 0), (0, 0)] := by
    norm_num [create_spherical_voronoi, stereographic_projectionF, insertAll,
      insert, expectOk]
  exact ⟨h, pole_stitch_is_final_insertion (1/1000) [some (1, 0, 0)] _ h⟩

/-- C6 counterexample: `create_spherical_voronoi` does pass the projection
pole through the forward projection.  The pole (0,-1,0) placed in the
input list is fed to `stereographic_projection`, whose `1/(1+y)` division
produces a non-finite image (`none`), and the subsequent insertion panics
the program; the code contains no check that would exclude the pole from
projection. -/
theorem pole_is_passed_through_projection :
    stereographic_projectionF (some (0, -1, 0)) = none ∧
    create_spherical_voronoi (1/1000) [some (0, -1, 0)] = none := by
  constructor
  · norm_num [stereographic_projectionF]
  · norm_num [create_spherical_voronoi, stereographic_projectionF, insertAll,
      insert, expectOk]

/-- C8: the pipeline is deterministic.  The embedded
`create_spherical_voronoi` and `print_voronoi_edges` are pure functions
(the source routines use no randomness, no concurrency and no hidden
state; `rand` is used only inside `fibonacci_point`), so two runs on
equal input lists produce equal triangulations, and the Voronoi edge
collections extracted from them through any fixed edge enumeration are
equal. -/
theorem pipeline_deterministic (tol : ℚ) (ps qs : List (Option Vec3Q))
    (edgesOf : Option (List P2Q) → List (VoronoiVertexE × VoronoiVertexE))
    (h : ps = qs) :
    create_spherical_voronoi tol ps = create_spherical_voronoi tol qs ∧
    print_voronoi_edges (edgesOf (create_spherical_voronoi tol ps)) =
      print_voronoi_edges (edgesOf (create_spherical_voronoi tol qs)) := by
  subst h
  exact ⟨rfl, rfl⟩

/-- C8 witness: two runs on the concrete input list [some (1,0,0)] agree. -/
theorem pipeline_deterministic_witness :
    ([some ((1:ℚ), (0:ℚ), (0:ℚ))] = [some ((1:ℚ), (0:ℚ), (0:ℚ))]) ∧
    (create_spherical_voronoi 0 [some ((1:ℚ), (0:ℚ), (0:ℚ))] =
        create_spherical_voronoi 0 [some ((1:ℚ), (0:ℚ), (0:ℚ))] ∧
      print_voronoi_edges ((fun _ => [])
          (create_spherical_voronoi 0 [some ((1:ℚ), (0:ℚ), (0:ℚ))])) =
        print_voronoi_edges ((fun _ => [])
          (create_spherical_voronoi 0 [some ((1:ℚ), (0:ℚ), (0:ℚ))]))) :=
  ⟨rfl, pipeline_deterministic 0 _ _ (fun _ => []) rfl⟩

/-- Embedding of `normalize_to_sphere` (fibonacci_sphere.rs, lines 19-22): divide the
point componentwise by its magnitude
`(p.0*p.0 + p.1*p.1 + p.2*p.2).sqrt()`.  No zero-magnitude guard exists
in the source. -/
noncomputable def normalize_to_sphere (point : Vec3) : Vec3 :=
  let magnitude := Real.sqrt (point.1 * point.1 + point.2.1 * point.2.1 +
    point.2.2 * point.2.2)
  (point.1 / magnitude, point.2.1 / magnitude, point.2.2 / magnitude)

/-- Embedding of `fibonacci_point` (fibonacci_sphere.rs, lines 43-63).  The three rng
draws `rng.gen::<f64>() - 0.5` (each a value in `[-1/2, 1/2]`) are passed
as the explicit parameter `d`. -/
noncomputable def fibonacci_point (index num_points : ℕ) (jitter : ℝ)
    (d : Vec3) : Vec3 :=
  let phi := Real.pi * (3 - Real.sqrt 5)
  let z : ℝ := 1 - ((index : ℝ) + 0.5) / (num_points : ℝ) * 2
  let radius := Real.sqrt (1 - z * z)
  let theta := phi * (index : ℝ)
  let x := radius * Real.cos theta
  let y := radius * Real.sin theta
  (x + jitter * d.1 * 0.1, y + jitter * d.2.1 * 0.1, z + jitter * d.2.2 * 0.1)

/-- Embedding of `generate_fibonacci_sphere` (fibonacci_sphere.rs, lines 87-108): map
each index `0 .. num_samples` to its jittered Fibonacci point, normalize
it to the unit sphere and scale by 1000.  Timing and the `raw_points.txt`
output are omitted; `ds i` supplies the rng draws consumed at index `i`. -/
noncomputable def generate_fibonacci_sphere (num_samples : ℕ) (jitter : ℝ)
    (ds : ℕ → Vec3) : List Vec3 :=
  (List.range num_samples).map fun i =>
    let p := fibonacci_point i num_samples jitter (ds i)
    let n := normalize_to_sphere p
    (n.1 * 1000, n.2.1 * 1000, n.2.2 * 1000)

/-- Helper: normalizing a vector of positive squared magnitude and scaling
by 1000 yields a point at distance exactly 1000 from the origin. -/
theorem normalize_scale_norm (v1 v2 v3 : ℝ)
    (hS : 0 < v1 * v1 + v2 * v2 + v3 * v3) :
    norm3 ((normalize_to_sphere (v1, v2, v3)).1 * 1000,
      (normalize_to_sphere (v1, v2, v3)).2.1 * 1000,
      (normalize_to_sphere (v1, v2, v3)).2.2 * 1000) = 1000 := by
  have hS0 : (0:ℝ) ≤ v1 * v1 + v2 * v2 + v3 * v3 := le_of_lt hS
  have hm : Real.sqrt (v1 * v1 + v2 * v2 + v3 * v3) ^ 2 =
      v1 * v1 + v2 * v2 + v3 * v3 := Real.sq_sqrt hS0
  have hmpos : 0 < Real.sqrt (v1 * v1 + v2 * v2 + v3 * v3) :=
    Real.sqrt_pos.mpr hS
  have hmne : Real.sqrt (v1 * v1 + v2 * v2 + v3 * v3) ≠ 0 := ne_of_gt hmpos
  simp only [normalize_to_sphere, norm3]
  have harg : (v1 / Real.sqrt (v1 * v1 + v2 * v2 + v3 * v3) * 1000) ^ 2 +
      (v2 / Real.sqrt (v1 * v1 + v2 * v2 + v3 * v3) * 1000) ^ 2 +
      (v3 / Real.sqrt (v1 * v1 + v2 * v2 + v3 * v3) * 1000) ^ 2 = 1000 ^ 2 := by
    rw [mul_pow, mul_pow, mul_pow, div_pow, div_pow, div_pow, hm]
    rw [show v1 ^ 2 / (v1 * v1 + v2 * v2 + v3 * v3) * 1000 ^ 2 +
        v2 ^ 2 / (v1 * v1 + v2 * v2 + v3 * v3) * 1000 ^ 2 +
        v3 ^ 2 / (v1 * v1 + v2 * v2 + v3 * v3) * 1000 ^ 2 =
        (v1 ^ 2 + v2 ^ 2 + v3 ^ 2) / (v1 * v1 + v2 * v2 + v3 * v3) * 1000 ^ 2
      from by ring]
    rw [show v1 ^ 2 + v2 ^ 2 + v3 ^ 2 = v1 * v1 + v2 * v2 + v3 * v3 from by ring]
    rw [div_self (ne_of_gt hS), one_mul]
  rw [harg, Real.sqrt_sq (by norm_num : (0:ℝ) ≤ 1000)]

/-- Helper: a unit-length base vector perturbed componentwise by at most
1/20 cannot be the zero vector, so its squared magnitude is positive. -/
theorem sum_sq_pos_of_unit_base (x y z p1 p2 p3 : ℝ)
    (hbase : x * x + y * y + z * z = 1)
    (h1 : -(1/20) ≤ p1) (h1' : p1 ≤ 1/20) (h2 : -(1/20) ≤ p2)
    (h2' : p2 ≤ 1/20) (h3 : -(1/20) ≤ p3) (h3' : p3 ≤ 1/20) :
    0 < (x + p1) * (x + p1) + (y + p2) * (y + p2) + (z + p3) * (z + p3) := by
  by_contra hc
  push_neg at hc
  have hS0 : 0 ≤ (x + p1) * (x + p1) + (y + p2) * (y + p2) +
      (z + p3) * (z + p3) :=
    add_nonneg (add_nonneg (mul_self_nonneg _) (mul_self_nonneg _))
      (mul_self_nonneg _)
  have hSe : (x + p1) * (x + p1) + (y + p2) * (y + p2) +
      (z + p3) * (z + p3) = 0 := le_antisymm hc hS0
  have he1 : x + p1 = 0 := mul_self_eq_zero.mp (le_antisymm
    (by linarith [mul_self_nonneg (y + p2), mul_self_nonneg (z + p3)])
    (mul_self_nonneg _))
  have he2 : y + p2 = 0 := mul_self_eq_zero.mp (le_antisymm
    (by linarith [mul_self_nonneg (x + p1), mul_self_nonneg (z + p3)])
    (mul_self_nonneg _))
  have he3 : z + p3 = 0 := mul_self_eq_zero.mp (le_antisymm
    (by linarith [mul_self_nonneg (x + p1), mul_self_nonneg (y + p2)])
    (mul_self_nonneg _))
  have hxx : x * x = p1 * p1 := by rw [show x = -p1 from by linarith]; ring
  have hyy : y * y = p2 * p2 := by rw [show y = -p2 from by linarith]; ring
  have hzz : z * z = p3 * p3 := by rw [show z = -p3 from by linarith]; ring
  have hq1 : p1 * p1 ≤ 1/400 := by nlinarith [h1, h1']
  have hq2 : p2 * p2 ≤ 1/400 := by nlinarith [h2, h2']
  have hq3 : p3 * p3 ≤ 1/400 := by nlinarith [h3, h3']
  linarith [hbase, hxx, hyy, hzz, hq1, hq2, hq3]

/-- Helper: the jittered Fibonacci sample, normalized and scaled by 1000,
has norm exactly 1000 whenever the base latitude satisfies `z*z ≤ 1` and
each jitter offset is at most 1/20 in absolute value. -/
theorem jittered_sample_norm (z θ p1 p2 p3 : ℝ) (hz : z * z ≤ 1)
    (hq1 : |p1| ≤ 1/20) (hq2 : |p2| ≤ 1/20) (hq3 : |p3| ≤ 1/20) :
    norm3 ((normalize_to_sphere (Real.sqrt (1 - z * z) * Real.cos θ + p1,
        Real.sqrt (1 - z * z) * Real.sin θ + p2, z + p3)).1 * 1000,
      (normalize_to_sphere (Real.sqrt (1 - z * z) * Real.cos θ + p1,
        Real.sqrt (1 - z * z) * Real.sin θ + p2, z + p3)).2.1 * 1000,
      (normalize_to_sphere (Real.sqrt (1 - z * z) * Real.cos θ + p1,
        Real.sqrt (1 - z * z) * Real.sin θ + p2, z + p3)).2.2 * 1000) = 1000 := by
  have hz0 : 0 ≤ 1 - z * z := by linarith
  have hr : Real.sqrt (1 - z * z) * Real.sqrt (1 - z * z) = 1 - z * z :=
    Real.mul_self_sqrt hz0
  have hpyth := Real.sin_sq_add_cos_sq θ
  have hbase : (Real.sqrt (1 - z * z) * Real.cos θ) *
        (Real.sqrt (1 - z * z) * Real.cos θ) +
      (Real.sqrt (1 - z * z) * Real.sin θ) *
        (Real.sqrt (1 - z * z) * Real.sin θ) + z * z = 1 := by
    linear_combination (Real.cos θ ^ 2 + Real.sin θ ^ 2) * hr +
      (1 - z * z) * hpyth
  have hb1 := abs_le.mp hq1
  have hb2 := abs_le.mp hq2
  have hb3 := abs_le.mp hq3
  exact normalize_scale_norm _ _ _
    (sum_sq_pos_of_unit_base _ _ _ _ _ _ hbase hb1.1 hb1.2 hb2.1 hb2.2
      hb3.1 hb3.2)

/-- Helper: every sample emitted by `generate_fibonacci_sphere` has
Euclidean norm 1000 when the index is in range, the jitter scale is at
most 1 in absolute value, and the rng draws are in their actual range
`[-1/2, 1/2]`. -/
theorem sample_norm3_eq (i n : ℕ) (jitter : ℝ) (d : Vec3) (hi : i < n)
    (hj : |jitter| ≤ 1) (hd1 : |d.1| ≤ 1/2) (hd2 : |d.2.1| ≤ 1/2)
    (hd3 : |d.2.2| ≤ 1/2) :
    norm3 ((normalize_to_sphere (fibonacci_point i n jitter d)).1 * 1000,
      (normalize_to_sphere (fibonacci_point i n jitter d)).2.1 * 1000,
      (normalize_to_sphere (fibonacci_point i n jitter d)).2.2 * 1000) = 1000 := by
  have hn0 : (0:ℝ) < n := by
    have h0 : 0 < n := Nat.lt_of_le_of_lt (Nat.zero_le i) hi
    exact_mod_cast h0
  have hfrac_lt : ((i : ℝ) + 0.5) / (n : ℝ) < 1 := by
    rw [div_lt_one hn0]
    have hcast : (i : ℝ) + 1 ≤ n := by exact_mod_cast Nat.succ_le_of_lt hi
    linarith [hcast]
  have hfrac_pos : 0 < ((i : ℝ) + 0.5) / (n : ℝ) := by positivity
  have hzz : (1 - ((i : ℝ) + 0.5) / (n : ℝ) * 2) *
      (1 - ((i : ℝ) + 0.5) / (n : ℝ) * 2) ≤ 1 := by nlinarith
  have hjb : ∀ t : ℝ, |t| ≤ 1/2 → |jitter * t * 0.1| ≤ 1/20 := by
    intro t ht
    rw [abs_mul, abs_mul]
    rw [show |(0.1 : ℝ)| = 1/10 from by
      rw [abs_of_nonneg (by norm_num : (0:ℝ) ≤ 0.1)]; norm_num]
    have hmul : |jitter| * |t| ≤ 1 * (1/2) :=
      mul_le_mul hj ht (abs_nonneg t) (by norm_num)
    nlinarith [abs_nonneg jitter, abs_nonneg t]
  simp only [fibonacci_point]
  exact jittered_sample_norm _ _ _ _ _ hzz (hjb d.1 hd1) (hjb d.2.1 hd2)
    (hjb d.2.2 hd3)

/-- C10 amended: for every `num_samples ≥ 1` and every jitter scale with
`|jitter| ≤ 1` (the caller uses 0.1, and the documented range is 0.0 to
1.0), `generate_fibonacci_sphere` returns exactly `num_samples` points,
and (in exact real arithmetic) every returned point lies at Euclidean
distance exactly 1000 from the origin — not on the unit sphere itself. -/
theorem fibonacci_sphere_count_and_radius (num_samples : ℕ) (jitter : ℝ)
    (ds : ℕ → Vec3) (_hn : 1 ≤ num_samples) (hj : |jitter| ≤ 1)
    (hd : ∀ i, |(ds i).1| ≤ 1/2 ∧ |(ds i).2.1| ≤ 1/2 ∧ |(ds i).2.2| ≤ 1/2) :
    (generate_fibonacci_sphere num_samples jitter ds).length = num_samples ∧
    ∀ p ∈ generate_fibonacci_sphere num_samples jitter ds, norm3 p = 1000 := by
  constructor
  · simp [generate_fibonacci_sphere]
  · intro p hp
    simp only [generate_fibonacci_sphere, List.mem_map, List.mem_range] at hp
    obtain ⟨i, hi, rfl⟩ := hp
    exact sample_norm3_eq i num_samples jitter (ds i) hi hj (hd i).1
      (hd i).2.1 (hd i).2.2

/-- C10 witness: one sample with jitter 0 and zero rng draws: the output
has exactly one point, and every point in it has norm 1000. -/
theorem fibonacci_sphere_count_and_radius_witness :
    (1 ≤ 1) ∧ (|(0:ℝ)| ≤ 1) ∧
    (∀ i : ℕ, |((fun _ : ℕ => ((0:ℝ), (0:ℝ), (0:ℝ))) i).1| ≤ 1/2 ∧
      |((fun _ : ℕ => ((0:ℝ), (0:ℝ), (0:ℝ))) i).2.1| ≤ 1/2 ∧
      |((fun _ : ℕ => ((0:ℝ), (0:ℝ), (0:ℝ))) i).2.2| ≤ 1/2) ∧
    ((generate_fibonacci_sphere 1 0 (fun _ => (0, 0, 0))).length = 1 ∧
      ∀ p ∈ generate_fibonacci_sphere 1 0 (fun _ => (0, 0, 0)),
        norm3 p = 1000) := by
  refine ⟨le_refl 1, by norm_num, fun i => ⟨by norm_num, by norm_num, by norm_num⟩, ?_⟩
  exact fibonacci_sphere_count_and_radius 1 0 (fun _ => (0, 0, 0)) (le_refl 1)
    (by norm_num) (fun i => ⟨by norm_num, by norm_num, by norm_num⟩)

/-- C10 counterexample: for jitter scale 40 and the possible rng draw
(-1/4, 0, 0) (each component of a draw lies in [-1/2, 1/2]), the single
jittered sample is the zero vector: the sole returned point is (0,0,0)
at distance 0 from the origin, not 1000.  (On `f64` hardware the same
input divides 0 by 0 and returns NaN coordinates.) -/
theorem fibonacci_sphere_zero_point :
    (|(-1/4 : ℝ)| ≤ 1/2) ∧
    generate_fibonacci_sphere 1 40 (fun _ => (-1/4, 0, 0)) = [(0, 0, 0)] ∧
    norm3 (0, 0, 0) = 0 ∧ (0 : ℝ) ≠ 1000 := by
  have hp : fibonacci_point 0 1 40 (-1/4, 0, 0) = (0, 0, 0) := by
    simp only [fibonacci_point]
    norm_num [Real.cos_zero, Real.sin_zero, Real.sqrt_one]
  have hq : normalize_to_sphere (0, 0, 0) = (0, 0, 0) := by
    simp [normalize_to_sphere]
  refine ⟨by rw [abs_le]; constructor <;> norm_num, ?_, ?_, by norm_num⟩
  · simp only [generate_fibonacci_sphere, show List.range 1 = [0] from rfl,
      List.map_cons, List.map_nil]
    rw [hp, hq]
    norm_num
  · simp [norm3]

end TerraForge
